import Mathlib

/-!
Shallow embedding of the Itinerix backend (src/main.py, src/schemas.py):
document serialization, date-range calculation, itinerary generation and
the get-by-id route handler, together with proofs of the specified
properties.
-/

namespace Itinerix

/-! ## Document values

Python dict/list/scalar values as they occur in persisted itinerary
documents.  `dt` carries the ISO-8601 rendering of a `datetime` (the only
observation the serializer makes of a datetime); `oid` carries the string
rendering of a BSON ObjectId. -/

inductive Value where
  | str (s : String)
  | int (n : Int)
  | dt (iso : String)
  | oid (s : String)
  | null
  | list (xs : List Value)
  | dict (entries : List (String × Value))
deriving Repr

/-- Python `str()` applied to a document value (used on the `_id` value by
`serialize_doc`; `str(datetime)` is `isoformat(sep=' ')`). -/
def pyStr : Value → String
  | .str s => s
  | .int n => toString n
  | .dt iso => iso.replace "T" " "
  | .oid s => s
  | .null => "None"
  | .list _ => "<list>"
  | .dict _ => "<dict>"

mutual

/-- `convert_nested` from `serialize_doc` (src/main.py lines 38-45):
recursively rebuild lists and dicts, turning every datetime into its
ISO-8601 string and leaving every other value as it is. -/
def convert_nested : Value → Value
  | .list xs => .list (convertList xs)
  | .dict es => .dict (convertEntries es)
  | .dt iso => .str iso
  | .str s => .str s
  | .int n => .int n
  | .oid s => .oid s
  | .null => .null

/-- `convert_nested` mapped over the elements of a Python list. -/
def convertList : List Value → List Value
  | [] => []
  | x :: xs => convert_nested x :: convertList xs

/-- `convert_nested` mapped over the values of a Python dict
(insertion order preserved). -/
def convertEntries : List (String × Value) → List (String × Value)
  | [] => []
  | (k, v) :: es => (k, convert_nested v) :: convertEntries es

end

/-- First value stored under key `k` (Python `d[k]` / `"k" in d`). -/
def lookupVal : List (String × Value) → String → Option Value
  | [], _ => none
  | p :: d, k => if p.1 = k then some p.2 else lookupVal d k

/-- Python `d[k] = v` on an insertion-ordered dict: overwrite in place if
the key exists, otherwise append at the end. -/
def dictSet : List (String × Value) → String → Value → List (String × Value)
  | [], k, v => [(k, v)]
  | p :: d, k, v => if p.1 = k then (k, v) :: d else p :: dictSet d k v

/-- Python `d.pop(k)`'s effect on the entries: remove the entry keyed
`k`. -/
def dictPop : List (String × Value) → String → List (String × Value)
  | [], _ => []
  | p :: d, k => if p.1 = k then d else p :: dictPop d k

/-- The top-level datetime pass of `serialize_doc` (lines 34-36): a
datetime value is overwritten by its ISO string, anything else is kept. -/
def topDt : Value → Value
  | .dt iso => .str iso
  | v => v

/-- `serialize_doc` (src/main.py lines 27-46): no-op on a falsy (empty)
doc; otherwise work on a shallow copy, rename/stringify `_id` to `id`,
convert top-level datetimes in place, then run `convert_nested` over the
whole structure. -/
def serialize_doc (doc : List (String × Value)) : List (String × Value) :=
  if doc.isEmpty then doc
  else
    let d1 :=
      match lookupVal doc "_id" with
      | some v => dictSet (dictPop doc "_id") "id" (.str (pyStr v))
      | none => doc
    let d2 := d1.map (fun p => (p.1, topDt p.2))
    convertEntries d2

/-! ## Date-range calculation

`datetime.strptime(s, "%Y-%m-%d")` is embedded faithfully: exactly four
(ASCII) digits for the year, one or two digits for month and day with the
value ranges of CPython's strptime regex (month 1-12, day 1-31), literal
dashes, no leftover input, then the `datetime` constructor's calendar
validation (year >= 1, day within the month's true length, Gregorian leap
years). -/

def digitVal (c : Char) : Nat := c.toNat - 48

def isLeap (y : Nat) : Bool :=
  y % 4 == 0 && (y % 100 != 0 || y % 400 == 0)

def daysInMonth (y m : Nat) : Nat :=
  if m == 2 then (if isLeap y then 29 else 28)
  else if m == 4 || m == 6 || m == 9 || m == 11 then 30
  else 31

/-- Cumulative days before month `m` in a non-leap year. -/
def daysBeforeMonthCommon (m : Nat) : Nat :=
  [0, 31, 59, 90, 120, 151, 181, 212, 243, 273, 304, 334].getD (m - 1) 0

def daysBeforeMonth (y m : Nat) : Nat :=
  daysBeforeMonthCommon m + (if 2 < m && isLeap y then 1 else 0)

structure Date where
  year : Nat
  month : Nat
  day : Nat
deriving Repr, DecidableEq

/-- Proleptic Gregorian ordinal of a date (0001-01-01 is day 1), as used
by Python date subtraction. -/
def toOrdinal (d : Date) : Nat :=
  (d.year - 1) * 365 + (d.year - 1) / 4 - (d.year - 1) / 100
    + (d.year - 1) / 400 + daysBeforeMonth d.year d.month + d.day

/-- Month field of `%Y-%m-%d` plus the following literal dash: one digit
1-9, or two digits with value 1-12, then `-`. -/
def parseMonth : List Char → Option (Nat × List Char)
  | d1 :: d2 :: rest2 =>
    if d1.isDigit then
      if d2.isDigit then
        match rest2 with
        | '-' :: rest3 =>
          let v := 10 * digitVal d1 + digitVal d2
          if 1 ≤ v && v ≤ 12 then some (v, rest3) else none
        | _ => none
      else if d2 == '-' then
        if 1 ≤ digitVal d1 then some (digitVal d1, rest2) else none
      else none
    else none
  | _ => none

/-- Day field of `%Y-%m-%d`, which must use up the whole remaining input:
one digit 1-9 or two digits with value 1-31. -/
def parseDay : List Char → Option Nat
  | [d1] => if d1.isDigit && 1 ≤ digitVal d1 then some (digitVal d1) else none
  | [d1, d2] =>
    if d1.isDigit && d2.isDigit then
      let v := 10 * digitVal d1 + digitVal d2
      if 1 ≤ v && v ≤ 31 then some v else none
    else none
  | _ => none

/-- `datetime.strptime(s, "%Y-%m-%d")`: `none` exactly when strptime (or
the datetime constructor) raises. -/
def parseDate (s : String) : Option Date :=
  match s.toList with
  | c1 :: c2 :: c3 :: c4 :: '-' :: rest =>
    if c1.isDigit && c2.isDigit && c3.isDigit && c4.isDigit then
      let y := 1000 * digitVal c1 + 100 * digitVal c2 + 10 * digitVal c3
        + digitVal c4
      match parseMonth rest with
      | some (m, rest2) =>
        match parseDay rest2 with
        | some d =>
          if 1 ≤ y && d ≤ daysInMonth y m then some ⟨y, m, d⟩ else none
        | none => none
      | none => none
    else none
  | _ => none

/-- `date_diff_days` (src/main.py lines 49-56): inclusive day count
`(end - start).days + 1` floored at 1, or the fixed default 3 when either
date string fails to parse. -/
def date_diff_days (startS endS : String) : Nat :=
  match parseDate startS, parseDate endS with
  | some sd, some ed =>
    (max 1 ((toOrdinal ed : Int) - (toOrdinal sd : Int) + 1)).toNat
  | _, _ => 3

/-! ## Schemas (src/schemas.py)

The pydantic `Literal` enum fields are carried as strings, which is what
they are at runtime; field defaults mirror the pydantic defaults. -/

structure TripPreference where
  destination : String
  start_date : String
  end_date : String
  travelers : Nat := 1
  budget_level : String := "moderate"
  pace : String := "balanced"
  mood : List String := []
  interests : List String := []
  notes : Option String := none
deriving Repr, DecidableEq

structure ItineraryItem where
  day : Nat
  title : String
  description : String
  category : String := "sightseeing"
  time_of_day : String := "flex"
  location : Option String := none
  cost_estimate : Option Int := none
deriving Repr, DecidableEq

structure Itinerary where
  name : String
  preference : TripPreference
  items : List ItineraryItem := []
  summary : Option String := none
  destination_emoji : Option String := none
deriving Repr

/-! ## Generator (src/main.py lines 63-154) -/

/-- ASCII case folding for one character (all strings the generator
lowercases and compares are ASCII). -/
def asciiLower (c : Char) : Char :=
  if 65 ≤ c.toNat && c.toNat ≤ 90 then Char.ofNat (c.toNat + 32) else c

/-- Python `str.lower()` restricted to ASCII. -/
def pyLower (s : String) : String := String.mk (s.data.map asciiLower)

/-- Is `needle` a contiguous substring of `hay` (Python `k in name`)? -/
def charsContain (hay needle : List Char) : Bool :=
  match hay with
  | [] => needle.isEmpty
  | _ :: t => needle.isPrefixOf hay || charsContain t needle

def strContains (hay needle : String) : Bool :=
  charsContain hay.toList needle.toList

/-- `pick_emoji` (src/main.py lines 63-73): first keyword group whose
member occurs in the lowercased destination wins. -/
def pick_emoji (destination : String) : String :=
  let name := pyLower destination
  if ["paris", "rome", "florence", "milan"].any (fun k => strContains name k) then
    "🗺️"
  else if ["tokyo", "kyoto", "osaka", "japan"].any (fun k => strContains name k) then
    "🗻"
  else if ["beach", "bali", "maldives", "honolulu", "miami"].any
      (fun k => strContains name k) then
    "🏝️"
  else if ["new york", "nyc", "los angeles", "la", "london"].any
      (fun k => strContains name k) then
    "🏙️"
  else "✈️"

/-- The `interest_map` dict of `generate_daily_plan` together with its
`.get` default `("sightseeing", [morning, afternoon, evening])`. -/
def interest_map (key : String) : String × List String :=
  if key == "food" then ("food", ["morning", "evening"])
  else if key == "museums" then ("culture", ["afternoon"])
  else if key == "art" then ("culture", ["afternoon", "evening"])
  else if key == "nature" then ("adventure", ["morning", "afternoon"])
  else if key == "shopping" then ("shopping", ["afternoon", "evening"])
  else if key == "nightlife" then ("nightlife", ["evening"])
  else if key == "relax" then ("relaxation", ["morning", "afternoon"])
  else if key == "history" then ("culture", ["morning"])
  else ("sightseeing", ["morning", "afternoon", "evening"])

/-- `pace_to_count.get(prefs.pace, 3)`. -/
def pace_to_count (pace : String) : Nat :=
  if pace == "relaxed" then 2
  else if pace == "balanced" then 3
  else if pace == "packed" then 4
  else 3

/-- The category-to-title dict of `generate_daily_plan`, as a partial
lookup (Python raises KeyError on a missing key). -/
def title_table (cat : String) : Option String :=
  if cat == "sightseeing" then some "Iconic Landmark Walk"
  else if cat == "food" then some "Local Bites & Street Food"
  else if cat == "culture" then some "Museum or Cultural Spot"
  else if cat == "adventure" then some "Outdoor Adventure"
  else if cat == "relaxation" then some "Slow Stroll & Cafe"
  else if cat == "shopping" then some "Design + Boutique Crawl"
  else if cat == "nightlife" then some "Evening Bars & Live Music"
  else if cat == "transport" then some "Transfer/Check-in"
  else none

/-- `', '.join(prefs.mood) or 'explore'`. -/
def moodText (mood : List String) : String :=
  let j := String.intercalate ", " mood
  if j == "" then "explore" else j

/-- One activity of a daily plan: slot `i` of the block for `day_idx`. -/
def dailyActivity (day_idx : Nat) (prefs : TripPreference) (i : Nat) :
    ItineraryItem :=
  let key :=
    if prefs.interests.isEmpty then "sightseeing"
    else pyLower (prefs.interests.getD (i % max 1 prefs.interests.length) "")
  let ct := interest_map key
  let tod := ct.2.getD (i % ct.2.length) ""
  { day := day_idx
    title := (title_table ct.1).getD "<KeyError>"
    description :=
      "Curated " ++ ct.1 ++ " stop aligned with your mood: "
        ++ moodText prefs.mood ++ "."
    category := ct.1
    time_of_day := tod }

/-- `generate_daily_plan` (src/main.py lines 76-110). -/
def generate_daily_plan (day_idx : Nat) (prefs : TripPreference) :
    List ItineraryItem :=
  (List.range (pace_to_count prefs.pace)).map (dailyActivity day_idx prefs)

/-- The fixed arrival item appended first by `generate_itinerary`. -/
def arrival_item : ItineraryItem :=
  { day := 1
    title := "Arrival & Check-in"
    description := "Settle in and take a gentle neighborhood walk."
    category := "transport"
    time_of_day := "morning" }

/-- The fixed farewell item appended when the trip has more than 2 days. -/
def farewell_item (days : Nat) : ItineraryItem :=
  { day := days
    title := "Farewell Dinner"
    description := "Wrap up the trip with a memorable final meal."
    category := "food"
    time_of_day := "evening" }

/-- `generate_itinerary` (src/main.py lines 113-154). -/
def generate_itinerary (prefs : TripPreference) : Itinerary :=
  let days := date_diff_days prefs.start_date prefs.end_date
  let daily := (List.range days).flatMap (fun d => generate_daily_plan (d + 1) prefs)
  let items :=
    arrival_item :: daily ++ (if 2 < days then [farewell_item days] else [])
  { name := prefs.destination ++ ": " ++ toString days ++ " days"
    preference := prefs
    items := items
    summary := some
      ("Personalized plan for " ++ prefs.destination ++ " over "
        ++ toString days ++ " days, optimized for a " ++ prefs.pace
        ++ " pace with a " ++ prefs.budget_level ++ " budget.")
    destination_emoji := some (pick_emoji prefs.destination) }

/-! ## The get-by-id route (src/main.py lines 202-212)

The handler body runs inside `try ... except Exception as e: raise
HTTPException(500, str(e))`.  Both `ObjectId(itinerary_id)` (raises on a
malformed id) and the handler's own `raise HTTPException(404, ...)` are
Python exceptions, so both land in the blanket handler.  The store lookup
and ObjectId validity are external collaborators, passed in as functions. -/

inductive Exc where
  | http (status : Nat) (detail : String)
  | invalidObjectId (id : String)
deriving Repr, DecidableEq

def Exc.message : Exc → String
  | .http s d => toString s ++ ": " ++ d
  | .invalidObjectId id =>
    "'" ++ id ++ "' is not a valid ObjectId"

inductive Response where
  | ok (body : List (String × Value))
  | error (status : Nat) (detail : String)
deriving Repr

def Response.status : Response → Nat
  | .ok _ => 200
  | .error s _ => s

/-- The `try` block of `get_itinerary`: parse the id, look the document
up, 404 when absent, serialize when found. -/
def get_itinerary_body (validObjectId : String → Bool)
    (findOne : String → Option (List (String × Value)))
    (itinerary_id : String) : Except Exc (List (String × Value)) :=
  if validObjectId itinerary_id then
    match findOne itinerary_id with
    | none => .error (.http 404 "Itinerary not found")
    | some doc => .ok (serialize_doc doc)
  else .error (.invalidObjectId itinerary_id)

/-- `get_itinerary` (src/main.py lines 202-212): every exception raised in
the `try` block, the 404 `HTTPException` included, is converted to a 500
response by the blanket `except Exception` handler. -/
def get_itinerary (validObjectId : String → Bool)
    (findOne : String → Option (List (String × Value)))
    (itinerary_id : String) : Response :=
  match get_itinerary_body validObjectId findOne itinerary_id with
  | .ok body => .ok body
  | .error e => .error 500 e.message

/-! ## Heap model of `serialize_doc`

For the no-mutation claim the serializer is embedded a second time, over
an explicit heap: Python dicts and lists are heap objects referenced by
address, scalars are immutable.  `dict(doc)` allocates a fresh shallow
copy; every write in the function targets that copy or a freshly
allocated object, never a pre-existing address. -/

inductive Prim where
  | str (s : String)
  | int (n : Int)
  | dt (iso : String)
  | oid (s : String)
  | none
deriving Repr, DecidableEq

inductive PyVal where
  | prim (p : Prim)
  | ref (a : Nat)
deriving Repr, DecidableEq

inductive Obj where
  | dict (entries : List (String × PyVal))
  | list (elems : List PyVal)
deriving Repr, DecidableEq

structure Heap where
  objs : List (Nat × Obj)
  next : Nat
deriving Repr, DecidableEq

def Heap.get (h : Heap) (a : Nat) : Option Obj :=
  (h.objs.find? (fun p => p.1 == a)).map (·.2)

/-- Allocate a fresh object, returning its address. -/
def Heap.alloc (h : Heap) (o : Obj) : Heap × Nat :=
  (⟨(h.next, o) :: h.objs, h.next + 1⟩, h.next)

/-- Overwrite the object at address `a` (shadowing in the list). -/
def Heap.set (h : Heap) (a : Nat) (o : Obj) : Heap :=
  ⟨(a, o) :: h.objs, h.next⟩

/-- `str()` of a Python value in the heap model. -/
def pyStrH : PyVal → String
  | .prim (.str s) => s
  | .prim (.int n) => toString n
  | .prim (.dt iso) => iso.replace "T" " "
  | .prim (.oid s) => s
  | .prim .none => "None"
  | .ref _ => "<object>"

/-- One conversion pass over the elements of a heap list, threading the
heap through `f` (the one-step value converter). -/
def convListF (f : Heap → PyVal → Option (Heap × PyVal)) :
    Heap → List PyVal → Option (Heap × List PyVal)
  | h, [] => some (h, [])
  | h, x :: xs =>
    match f h x with
    | none => none
    | some (h1, y) =>
      match convListF f h1 xs with
      | none => none
      | some (h2, ys) => some (h2, y :: ys)

/-- One conversion pass over the entries of a heap dict. -/
def convEntriesF (f : Heap → PyVal → Option (Heap × PyVal)) :
    Heap → List (String × PyVal) → Option (Heap × List (String × PyVal))
  | h, [] => some (h, [])
  | h, (k, v) :: es =>
    match f h v with
    | none => none
    | some (h1, y) =>
      match convEntriesF f h1 es with
      | none => none
      | some (h2, ys) => some (h2, (k, y) :: ys)

/-- `convert_nested` in the heap model: containers are rebuilt at fresh
addresses, datetimes become strings, other values are returned as they
are.  Fuel bounds the recursion through references (Python itself would
not terminate on a cyclic structure); no write ever targets an existing
address.  Defined through `Nat.rec` so that it evaluates by kernel
reduction. -/
def convVal : Nat → Heap → PyVal → Option (Heap × PyVal) :=
  fun fuel =>
    Nat.rec (motive := fun _ => Heap → PyVal → Option (Heap × PyVal))
      (fun _ _ => none)
      (fun _ ih h v =>
        match v with
        | .prim (.dt iso) => some (h, .prim (.str iso))
        | .prim p => some (h, .prim p)
        | .ref a =>
          match h.get a with
          | none => none
          | some (.list xs) =>
            match convListF ih h xs with
            | none => none
            | some (h1, ys) =>
              let al := h1.alloc (.list ys)
              some (al.1, .ref al.2)
          | some (.dict es) =>
            match convEntriesF ih h es with
            | none => none
            | some (h1, fs) =>
              let al := h1.alloc (.dict fs)
              some (al.1, .ref al.2))
      fuel

/-- Python `d[k] = v` on heap-model dict entries. -/
def dictSetH (d : List (String × PyVal)) (k : String) (v : PyVal) :
    List (String × PyVal) :=
  if d.any (fun p => p.1 == k) then
    d.map (fun p => if p.1 == k then (k, v) else p)
  else d ++ [(k, v)]

/-- `serialize_doc` in the heap model.  `docA` is the address of the dict
argument.  Mirrors src/main.py lines 27-46: falsy doc returned as is;
`d = dict(doc)` allocates a shallow copy; `_id` is popped and `id` set on
the copy; top-level datetimes are overwritten in place on the copy;
finally `convert_nested` rebuilds the structure at fresh addresses. -/
def serialize_doc_heap (fuel : Nat) (h : Heap) (docA : Nat) :
    Option (Heap × PyVal) :=
  match h.get docA with
  | Option.none => Option.none
  | some (.list _) => Option.none
  | some (.dict entries) =>
    if entries.isEmpty then some (h, .ref docA)
    else
      let (h1, dA) := h.alloc (.dict entries)
      let entries1 :=
        match (entries.find? (fun p => p.1 == "_id")).map (·.2) with
        | some v =>
          dictSetH (entries.eraseP (fun p => p.1 == "_id")) "id"
            (.prim (.str (pyStrH v)))
        | Option.none => entries
      let entries2 := entries1.map (fun p =>
        match p.2 with
        | .prim (.dt iso) => (p.1, PyVal.prim (.str iso))
        | _ => p)
      let h2 := h1.set dA (.dict entries2)
      convVal fuel h2 (.ref dA)

/-- Unfolding equation of `convVal` at positive fuel. -/
theorem convVal_succ (n : Nat) (h : Heap) (v : PyVal) :
    convVal (n + 1) h v =
      (match v with
       | .prim (.dt iso) => some (h, .prim (.str iso))
       | .prim p => some (h, .prim p)
       | .ref a =>
         match h.get a with
         | none => none
         | some (.list xs) =>
           match convListF (convVal n) h xs with
           | none => none
           | some (h1, ys) =>
             let al := h1.alloc (.list ys)
             some (al.1, .ref al.2)
         | some (.dict es) =>
           match convEntriesF (convVal n) h es with
           | none => none
           | some (h1, fs) =>
             let al := h1.alloc (.dict fs)
             some (al.1, .ref al.2)) := rfl

/-- The spec's tag-selection formula for activity slot `i` (claim C5):
the caller's interests entry at index `i mod len(interests)`, lowercased,
or the sentinel "sightseeing" when the interests list is empty.  Stated
from the spec's words, to be compared with `generate_daily_plan`. -/
def specInterestTag (p : TripPreference) (i : Nat) : String :=
  if p.interests.isEmpty then "sightseeing"
  else pyLower (p.interests.getD (i % p.interests.length) "")

/-! ## Concrete instances used as witnesses -/

/-- A document with an ObjectId `_id`, a top-level datetime and a nested
datetime. -/
def doc0 : List (String × Value) :=
  [("_id", .oid "abc123"),
   ("when", .dt "2024-01-02T03:04:05"),
   ("nested", .dict [("t", .dt "2020-05-06T07:08:09")])]

/-- The worked example of the spec: Paris, 2024-06-01 to 2024-06-03,
relaxed pace, interests ["food"]. -/
def parisPrefs : TripPreference :=
  { destination := "Paris"
    start_date := "2024-06-01"
    end_date := "2024-06-03"
    pace := "relaxed"
    interests := ["food"] }

/-- A small demo preference used to instantiate universally quantified
theorems. -/
def demoPrefs : TripPreference :=
  { destination := "Tokyo"
    start_date := "2024-03-10"
    end_date := "2024-03-12"
    pace := "balanced"
    mood := ["calm"]
    interests := ["museums", "food"] }

/-- A demo heap: address 0 holds a document dict (with an `_id`, a
datetime and a nested list at address 1), address 1 the nested list. -/
def heap0 : Heap :=
  { objs :=
      [(0, .dict
          [("_id", .prim (.oid "abc123")),
           ("when", .prim (.dt "2024-01-02T03:04:05")),
           ("tags", .ref 1)]),
       (1, .list [.prim (.dt "2020-01-01T00:00:00"), .prim (.int 7)])]
    next := 2 }

/-- The heap after running the heap-model serializer on `heap0`. -/
def c8resHeap : Heap :=
  ((serialize_doc_heap 10 heap0 0).getD (heap0, .prim .none)).1

/-- The value returned by the heap-model serializer on `heap0`. -/
def c8resVal : PyVal :=
  ((serialize_doc_heap 10 heap0 0).getD (heap0, .prim .none)).2

/-- Heap extension: the new heap has at least the same frontier and
agrees with the old one on every previously allocated address. -/
def HeapExt (h h' : Heap) : Prop :=
  h.next ≤ h'.next ∧ ∀ a, a < h.next → h'.get a = h.get a

/-! ## Theorems -/

/-- Claim C1 (code bug): the get-by-id route never produces the 404 the
spec promises.  A malformed identifier makes `ObjectId` raise, and an
unknown identifier makes the handler raise its own 404 `HTTPException`;
both are caught by the blanket `except Exception` and re-raised as 500.
The third conjunct shows the `try` body does produce the intended 404,
which the wrapper then converts to 500. -/
theorem get_itinerary_unknown_or_malformed_gives_500 :
    (get_itinerary (fun _ => false) (fun _ => none) "not-an-objectid").status = 500
    ∧ (get_itinerary (fun _ => true) (fun _ => none)
        "ffffffffffffffffffffffff").status = 500
    ∧ get_itinerary_body (fun _ => true) (fun _ => none)
        "ffffffffffffffffffffffff"
        = Except.error (.http 404 "Itinerary not found") :=
  ⟨rfl, rfl, rfl⟩

/-- Claim C2 (counterexample): on the spec's Paris example the itinerary
does not have 4 items — the generator emits the per-day block once per
day, so the count is 1 + 3 * 2 + 1 = 8. -/
theorem paris_example_item_count_ne_four :
    (generate_itinerary parisPrefs).items.length ≠ 4 := by decide

/-- Claim C2 (amended): Paris, 2024-06-01 to 2024-06-03, relaxed pace,
interests ["food"] gives 3 days, 8 items (1 arrival + 3 days x 2
activities + 1 farewell) and the map emoji. -/
theorem paris_example_amended :
    date_diff_days parisPrefs.start_date parisPrefs.end_date = 3
    ∧ (generate_itinerary parisPrefs).items.length = 8
    ∧ (generate_itinerary parisPrefs).destination_emoji = some "🗺️" :=
  ⟨by decide, by decide, by decide⟩

/-- Claim C3: when both date strings parse, `date_diff_days` returns
`(end - start).days + 1` floored at 1 (hence at least 1); when either
fails to parse, it returns exactly 3. -/
theorem date_diff_days_spec (startS endS : String) :
    (∀ sd ed, parseDate startS = some sd → parseDate endS = some ed →
      (date_diff_days startS endS : Int)
          = max 1 ((toOrdinal ed : Int) - (toOrdinal sd : Int) + 1)
        ∧ 1 ≤ date_diff_days startS endS)
    ∧ ((parseDate startS = none ∨ parseDate endS = none) →
        date_diff_days startS endS = 3) := by
  constructor
  · intro sd ed hs he
    have hval : date_diff_days startS endS
        = (max 1 ((toOrdinal ed : Int) - (toOrdinal sd : Int) + 1)).toNat := by
      unfold date_diff_days
      rw [hs, he]
    rw [hval]
    constructor
    · omega
    · omega
  · intro hfail
    unfold date_diff_days
    rcases hfail with hfail | hfail
    · rw [hfail]
    · cases hp : parseDate startS <;> rw [hfail]

/-- Witness for C3 at the concrete inputs 2024-06-01/2024-06-03 (both
parse) and "2024-0x"/2024-06-03 (first fails to parse). -/
theorem date_diff_days_spec_witness :
    ((date_diff_days "2024-06-01" "2024-06-03" : Int)
        = max 1 ((toOrdinal ⟨2024, 6, 3⟩ : Int) - (toOrdinal ⟨2024, 6, 1⟩ : Int) + 1)
      ∧ 1 ≤ date_diff_days "2024-06-01" "2024-06-03")
    ∧ date_diff_days "2024-0x" "2024-06-03" = 3 :=
  ⟨(date_diff_days_spec "2024-06-01" "2024-06-03").1 ⟨2024, 6, 1⟩ ⟨2024, 6, 3⟩
      (by decide) (by decide),
   (date_diff_days_spec "2024-0x" "2024-06-03").2 (Or.inl (by decide))⟩

/-- Claim C9: the generator is a pure function of its input — two runs on
equal preferences give equal itineraries (there is no randomness, time or
global state in the embedded computation). -/
theorem generate_itinerary_deterministic (p q : TripPreference) (h : p = q) :
    generate_itinerary p = generate_itinerary q := by rw [h]

/-- Witness for C9: two runs on the Paris preferences agree. -/
theorem generate_itinerary_deterministic_witness :
    generate_itinerary parisPrefs = generate_itinerary parisPrefs :=
  generate_itinerary_deterministic parisPrefs parisPrefs rfl

/-- Claim C4: the item count is 1 (arrival) plus the sum of the per-day
block lengths over days 1..days, plus 1 exactly when days > 2. -/
theorem generate_itinerary_item_count (p : TripPreference) :
    (generate_itinerary p).items.length =
      1 + ((List.range (date_diff_days p.start_date p.end_date)).map
            (fun d => (generate_daily_plan (d + 1) p).length)).sum
        + (if 2 < date_diff_days p.start_date p.end_date then 1 else 0) := by
  unfold generate_itinerary
  simp only [List.length_cons, List.length_append, List.length_flatMap,
    Function.comp_def]
  split <;> simp <;> omega

/-- Slot `i` of a daily plan is `dailyActivity day_idx prefs i`. -/
theorem generate_daily_plan_getElem (d i : Nat) (p : TripPreference)
    (h : i < pace_to_count p.pace) :
    (generate_daily_plan d p)[i]? = some (dailyActivity d p i) := by
  unfold generate_daily_plan
  simp [List.getElem?_range h]

/-- The key the code computes for slot `i` equals the spec's formula. -/
theorem dailyKey_eq_specInterestTag (p : TripPreference) (i : Nat) :
    (if p.interests.isEmpty then "sightseeing"
      else pyLower (p.interests.getD (i % max 1 p.interests.length) ""))
      = specInterestTag p i := by
  unfold specInterestTag
  cases hemp : p.interests.isEmpty with
  | true => simp
  | false =>
    have hlen : 1 ≤ p.interests.length := by
      cases hl : p.interests with
      | nil => rw [hl] at hemp; simp at hemp
      | cons a l => simp [hl]
    simp [Nat.max_eq_right hlen]

/-- Claim C5: the per-day block has exactly the pace-table count of items
(relaxed 2, balanced 3, packed 4, default 3); slot `i` uses the interests
entry at `i mod len(interests)` (sentinel "sightseeing" when interests is
empty), lowercased and mapped through the interest table (unrecognized
tags give category "sightseeing" with all three time-of-day options), and
its time of day cycles the category's options at `i mod (number of
options)`. -/
theorem generate_daily_plan_spec (p : TripPreference) (d i : Nat) :
    (generate_daily_plan d p).length = pace_to_count p.pace
    ∧ pace_to_count "relaxed" = 2
    ∧ pace_to_count "balanced" = 3
    ∧ pace_to_count "packed" = 4
    ∧ (∀ s, s ≠ "relaxed" → s ≠ "balanced" → s ≠ "packed" → pace_to_count s = 3)
    ∧ (∀ s, s ∉ (["food", "museums", "art", "nature", "shopping", "nightlife",
          "relax", "history"] : List String) →
        interest_map s = ("sightseeing", ["morning", "afternoon", "evening"]))
    ∧ (i < pace_to_count p.pace →
        ∃ it, (generate_daily_plan d p)[i]? = some it
          ∧ it.category = (interest_map (specInterestTag p i)).1
          ∧ it.time_of_day = (interest_map (specInterestTag p i)).2.getD
              (i % (interest_map (specInterestTag p i)).2.length) "") := by
  refine ⟨?_, rfl, rfl, rfl, ?_, ?_, ?_⟩
  · simp [generate_daily_plan]
  · intro s h1 h2 h3
    simp [pace_to_count, h1, h2, h3]
  · intro s hs
    simp only [List.mem_cons, List.not_mem_nil, or_false, not_or] at hs
    obtain ⟨h1, h2, h3, h4, h5, h6, h7, h8⟩ := hs
    simp [interest_map, h1, h2, h3, h4, h5, h6, h7, h8]
  · intro h
    refine ⟨dailyActivity d p i, generate_daily_plan_getElem d i p h, ?_, ?_⟩
    · simp only [dailyActivity]
      rw [dailyKey_eq_specInterestTag]
    · simp only [dailyActivity]
      rw [dailyKey_eq_specInterestTag]

/-- Witness for C5 at the demo preferences, day 1, slot 0. -/
theorem generate_daily_plan_spec_witness :
    (generate_daily_plan 1 demoPrefs).length = pace_to_count demoPrefs.pace
    ∧ ∃ it, (generate_daily_plan 1 demoPrefs)[0]? = some it
        ∧ it.category = (interest_map (specInterestTag demoPrefs 0)).1
        ∧ it.time_of_day = (interest_map (specInterestTag demoPrefs 0)).2.getD
            (0 % (interest_map (specInterestTag demoPrefs 0)).2.length) "" :=
  ⟨(generate_daily_plan_spec demoPrefs 1 0).1,
   (generate_daily_plan_spec demoPrefs 1 0).2.2.2.2.2.2 (by decide)⟩

/-- Claim C6: the interest table never yields category "transport", so no
per-day activity is a transport item; the title table still carries a
"transport" entry, and the only transport item in a generated itinerary
is the fixed arrival item. -/
theorem transport_only_arrival (p : TripPreference) (d : Nat) :
    (∀ s, (interest_map s).1 ≠ "transport")
    ∧ title_table "transport" = some "Transfer/Check-in"
    ∧ (∀ it ∈ generate_daily_plan d p, it.category ≠ "transport")
    ∧ (∀ it ∈ (generate_itinerary p).items,
        it.category = "transport" → it = arrival_item) := by
  have hmap : ∀ s, (interest_map s).1 ≠ "transport" := by
    intro s
    unfold interest_map
    split_ifs <;> simp
  have hdaily : ∀ d' : Nat, ∀ it ∈ generate_daily_plan d' p,
      it.category ≠ "transport" := by
    intro d' it hit
    unfold generate_daily_plan at hit
    simp only [List.mem_map] at hit
    obtain ⟨i, _, rfl⟩ := hit
    simpa [dailyActivity] using hmap _
  refine ⟨hmap, rfl, hdaily d, ?_⟩
  intro it hit hcat
  unfold generate_itinerary at hit
  simp only [List.mem_cons, List.mem_append, List.mem_flatMap,
    List.mem_range] at hit
  rcases hit with (rfl | ⟨a, _, hmem⟩) | hfw
  · rfl
  · exact absurd hcat (hdaily (a + 1) it hmem)
  · split at hfw
    · simp only [List.mem_singleton] at hfw
      subst hfw
      simp [farewell_item] at hcat
    · simp at hfw

/-- Witness for C6: the first activity of a concrete daily plan is not a
transport item. -/
theorem transport_only_arrival_witness :
    (dailyActivity 1 demoPrefs 0).category ≠ "transport"
    ∧ (interest_map "museums").1 ≠ "transport" :=
  ⟨(transport_only_arrival demoPrefs 1).2.2.1 (dailyActivity 1 demoPrefs 0)
      (by decide),
   (transport_only_arrival demoPrefs 1).1 "museums"⟩

/-- A `getD` on a list is an element of the list or the fallback. -/
theorem getD_mem_or_default (l : List String) (i : Nat) (d : String) :
    l.getD i d ∈ l ∨ l.getD i d = d := by
  cases h : l[i]? with
  | none => right; simp [List.getD_eq_getElem?_getD, h]
  | some a =>
    left
    have := List.getElem?_mem h
    simpa [List.getD_eq_getElem?_getD, h] using this

/-- Claim C10: no generated item ever has time_of_day "flex" — every
interest-table option list holds only morning/afternoon/evening, the
arrival item is "morning" and the farewell is "evening" — even though the
`ItineraryItem` schema permits "flex" and uses it as the field default. -/
theorem no_flex_time_of_day (p : TripPreference) :
    (∀ it ∈ (generate_itinerary p).items, it.time_of_day ≠ "flex")
    ∧ ({ day := 1, title := "T", description := "D" } : ItineraryItem).time_of_day
        = "flex"
    ∧ (∀ s, "flex" ∉ (interest_map s).2) := by
  have hno : ∀ s, "flex" ∉ (interest_map s).2 := by
    intro s
    unfold interest_map
    split_ifs <;> decide
  have htod : ∀ d' i : Nat, (dailyActivity d' p i).time_of_day ≠ "flex" := by
    intro d' i
    simp only [dailyActivity]
    rcases getD_mem_or_default
        (interest_map (if p.interests.isEmpty then "sightseeing"
          else pyLower (p.interests.getD (i % max 1 p.interests.length) ""))).2
        (i % (interest_map (if p.interests.isEmpty then "sightseeing"
          else pyLower (p.interests.getD (i % max 1 p.interests.length) ""))).2.length)
        "" with h | h
    · intro hc
      rw [hc] at h
      exact hno _ h
    · rw [h]
      decide
  refine ⟨?_, rfl, hno⟩
  intro it hit
  unfold generate_itinerary at hit
  simp only [List.mem_cons, List.mem_append, List.mem_flatMap,
    List.mem_range] at hit
  rcases hit with (rfl | ⟨a, _, hmem⟩) | hfw
  · decide
  · unfold generate_daily_plan at hmem
    simp only [List.mem_map] at hmem
    obtain ⟨i, _, rfl⟩ := hmem
    exact htod (a + 1) i
  · split at hfw
    · simp only [List.mem_singleton] at hfw
      subst hfw
      simp [farewell_item]
    · simp at hfw

/-- Witness for C10: the arrival item of the Paris itinerary is not
"flex". -/
theorem no_flex_time_of_day_witness :
    arrival_item.time_of_day ≠ "flex" :=
  (no_flex_time_of_day parisPrefs).1 arrival_item (by decide)

/-! ### Serializer lemmas (claim C7) -/

theorem convertEntries_eq_map (es : List (String × Value)) :
    convertEntries es = es.map (fun p => (p.1, convert_nested p.2)) := by
  induction es with
  | nil => rfl
  | cons p es ih =>
    cases p
    simp [convertEntries, ih]

theorem convertList_eq_map (xs : List Value) :
    convertList xs = xs.map convert_nested := by
  induction xs with
  | nil => rfl
  | cons x xs ih => simp [convertList, ih]

/-- The top-level datetime pass is absorbed by `convert_nested`. -/
theorem convert_nested_topDt (v : Value) :
    convert_nested (topDt v) = convert_nested v := by
  cases v <;> rfl

theorem lookupVal_map_val (f : Value → Value) (d : List (String × Value))
    (k : String) :
    lookupVal (d.map (fun p => (p.1, f p.2))) k = (lookupVal d k).map f := by
  induction d with
  | nil => rfl
  | cons p d ih =>
    by_cases hp : p.1 = k <;> simp [lookupVal, hp, ih]

theorem lookupVal_eq_none_of_not_mem (d : List (String × Value)) (k : String)
    (h : k ∉ d.map Prod.fst) : lookupVal d k = none := by
  induction d with
  | nil => rfl
  | cons p d ih =>
    simp only [List.map_cons, List.mem_cons, not_or] at h
    simp [lookupVal, Ne.symm h.1, ih h.2]

theorem lookupVal_dictPop_ne (d : List (String × Value)) (k k' : String)
    (h : k' ≠ k) :
    lookupVal (dictPop d k) k' = lookupVal d k' := by
  induction d with
  | nil => rfl
  | cons p d ih =>
    by_cases hp : p.1 = k
    · have hp' : p.1 ≠ k' := by rw [hp]; exact Ne.symm h
      simp [dictPop, lookupVal, hp, hp', Ne.symm h]
    · by_cases hp' : p.1 = k' <;> simp [dictPop, lookupVal, hp, hp', h, ih]

theorem lookupVal_dictPop_self (d : List (String × Value)) (k : String)
    (hnd : (d.map Prod.fst).Nodup) :
    lookupVal (dictPop d k) k = none := by
  induction d with
  | nil => rfl
  | cons p d ih =>
    simp only [List.map_cons, List.nodup_cons] at hnd
    by_cases hp : p.1 = k
    · simp only [dictPop, hp, if_true]
      exact lookupVal_eq_none_of_not_mem d k (hp ▸ hnd.1)
    · simp [dictPop, lookupVal, hp, ih hnd.2]

theorem lookupVal_dictSet_self (d : List (String × Value)) (k : String)
    (v : Value) : lookupVal (dictSet d k v) k = some v := by
  induction d with
  | nil => simp [dictSet, lookupVal]
  | cons p d ih =>
    by_cases hp : p.1 = k <;> simp [dictSet, lookupVal, hp, ih]

theorem lookupVal_dictSet_ne (d : List (String × Value)) (k k' : String)
    (v : Value) (h : k' ≠ k) :
    lookupVal (dictSet d k v) k' = lookupVal d k' := by
  induction d with
  | nil => simp [dictSet, lookupVal, Ne.symm h]
  | cons p d ih =>
    by_cases hp : p.1 = k
    · have hp' : p.1 ≠ k' := by rw [hp]; exact Ne.symm h
      simp [dictSet, lookupVal, hp, hp', Ne.symm h]
    · by_cases hp' : p.1 = k' <;> simp [dictSet, lookupVal, hp, hp', h, ih]

/-- Claim C7: the serializer returns a falsy doc unchanged; it renames
the `_id` field to a stringified `id` field and drops `_id`; every other
key keeps its position and its value is rewritten by `convert_nested`,
which turns a datetime into its ISO string at the same position —
recursively through nested dicts and lists — and leaves every other
scalar unchanged. -/
theorem serialize_doc_spec :
    serialize_doc [] = []
    ∧ (∀ doc v, (doc.map Prod.fst).Nodup → lookupVal doc "_id" = some v →
        lookupVal (serialize_doc doc) "id" = some (.str (pyStr v))
        ∧ lookupVal (serialize_doc doc) "_id" = none)
    ∧ (∀ doc k, k ≠ "id" → k ≠ "_id" →
        lookupVal (serialize_doc doc) k = (lookupVal doc k).map convert_nested)
    ∧ (∀ iso, convert_nested (.dt iso) = .str iso)
    ∧ (∀ s, convert_nested (.str s) = .str s)
    ∧ (∀ n, convert_nested (.int n) = .int n)
    ∧ (∀ s, convert_nested (.oid s) = .oid s)
    ∧ convert_nested .null = .null
    ∧ (∀ xs, convert_nested (.list xs) = .list (xs.map convert_nested))
    ∧ (∀ es, convert_nested (.dict es)
        = .dict (es.map (fun p => (p.1, convert_nested p.2)))) := by
  have hser : ∀ doc : List (String × Value), doc.isEmpty = false →
      serialize_doc doc =
        convertEntries
          (List.map (fun p : String × Value => (p.1, topDt p.2))
            (match lookupVal doc "_id" with
             | some v => dictSet (dictPop doc "_id") "id" (.str (pyStr v))
             | none => doc)) := by
    intro doc hne
    unfold serialize_doc
    rw [hne]
    rfl
  have hmapcomp :
      ∀ d1 : List (String × Value),
        (d1.map (fun p => (p.1, topDt p.2))).map
            (fun p : String × Value => (p.1, convert_nested p.2))
          = d1.map (fun p => (p.1, convert_nested p.2)) := by
    intro d1
    rw [List.map_map]
    apply List.map_congr_left
    intro p _
    simp only [Function.comp_apply, convert_nested_topDt]
  have hlook : ∀ (d1 : List (String × Value)) (k : String),
      lookupVal (convertEntries (d1.map (fun p => (p.1, topDt p.2)))) k
        = (lookupVal d1 k).map convert_nested := by
    intro d1 k
    rw [convertEntries_eq_map, hmapcomp, lookupVal_map_val]
  refine ⟨rfl, ?_, ?_, ?_, ?_, ?_, ?_, rfl, ?_, ?_⟩
  · intro doc v hnd hid
    have hne : doc.isEmpty = false := by
      cases doc with
      | nil => simp [lookupVal] at hid
      | cons p d => rfl
    rw [hser doc hne, hid]
    constructor
    · rw [hlook, lookupVal_dictSet_self]
      rfl
    · rw [hlook, lookupVal_dictSet_ne _ _ _ _ (by decide),
        lookupVal_dictPop_self _ _ hnd]
      rfl
  · intro doc k hk1 hk2
    cases hne : doc.isEmpty with
    | true =>
      have : doc = [] := by
        cases doc with
        | nil => rfl
        | cons p d => simp at hne
      subst this
      rfl
    | false =>
      rw [hser doc hne]
      cases hid : lookupVal doc "_id" with
      | none => rw [hlook]
      | some v =>
        rw [hlook, lookupVal_dictSet_ne _ _ _ _ hk1,
          lookupVal_dictPop_ne _ _ _ hk2]
  · intro iso; rfl
  · intro s; rfl
  · intro n; rfl
  · intro s; rfl
  · intro xs
    show Value.list (convertList xs) = _
    rw [convertList_eq_map]
  · intro es
    show Value.dict (convertEntries es) = _
    rw [convertEntries_eq_map]

/-- Witness for C7 on a concrete document with an ObjectId `_id`, a
top-level datetime and a nested datetime. -/
theorem serialize_doc_spec_witness :
    (lookupVal (serialize_doc doc0) "id" = some (.str "abc123")
      ∧ lookupVal (serialize_doc doc0) "_id" = none)
    ∧ lookupVal (serialize_doc doc0) "when"
        = (lookupVal doc0 "when").map convert_nested :=
  ⟨serialize_doc_spec.2.1 doc0 (.oid "abc123") (by decide) rfl,
   serialize_doc_spec.2.2.1 doc0 "when" (by decide) (by decide)⟩

/-! ### Heap-model lemmas (claim C8) -/

theorem heapExt_refl (h : Heap) : HeapExt h h :=
  ⟨Nat.le_refl _, fun _ _ => rfl⟩

theorem heapExt_trans {h1 h2 h3 : Heap} (a : HeapExt h1 h2)
    (b : HeapExt h2 h3) : HeapExt h1 h3 :=
  ⟨Nat.le_trans a.1 b.1,
   fun x hx => (b.2 x (Nat.lt_of_lt_of_le hx a.1)).trans (a.2 x hx)⟩

/-- An entry keyed by a fresh address does not change any old lookup. -/
theorem heap_get_cons_ne (objs : List (Nat × Obj)) (n m b : Nat) (o : Obj)
    (a : Nat) (hba : b ≠ a) :
    Heap.get ⟨(b, o) :: objs, n⟩ a = Heap.get ⟨objs, m⟩ a := by
  unfold Heap.get
  rw [List.find?_cons_of_neg _ (by simp [hba])]

theorem heapExt_alloc (h : Heap) (o : Obj) : HeapExt h (h.alloc o).1 := by
  constructor
  · show h.next ≤ h.next + 1
    omega
  · intro a ha
    show Heap.get ⟨(h.next, o) :: h.objs, h.next + 1⟩ a = h.get a
    rw [heap_get_cons_ne h.objs (h.next + 1) h.next h.next o a (Nat.ne_of_gt ha)]

/-- A single conversion pass (with any converter that only extends the
heap) only extends the heap. -/
theorem convListF_ext (f : Heap → PyVal → Option (Heap × PyVal))
    (hf : ∀ h v r, f h v = some r → HeapExt h r.1) :
    ∀ (xs : List PyVal) (h : Heap) r, convListF f h xs = some r → HeapExt h r.1 := by
  intro xs
  induction xs with
  | nil =>
    intro h r hc
    simp only [convListF] at hc
    cases hc
    exact heapExt_refl h
  | cons x xs ih =>
    intro h r hc
    simp only [convListF] at hc
    cases hcv : f h x with
    | none => simp only [hcv] at hc; exact Option.noConfusion hc
    | some pr =>
      obtain ⟨h1, y⟩ := pr
      simp only [hcv] at hc
      cases hcl : convListF f h1 xs with
      | none => simp only [hcl] at hc; exact Option.noConfusion hc
      | some pr2 =>
        obtain ⟨h2, ys⟩ := pr2
        simp only [hcl] at hc
        cases hc
        exact heapExt_trans (hf h x (h1, y) hcv) (ih h1 (h2, ys) hcl)

theorem convEntriesF_ext (f : Heap → PyVal → Option (Heap × PyVal))
    (hf : ∀ h v r, f h v = some r → HeapExt h r.1) :
    ∀ (es : List (String × PyVal)) (h : Heap) r,
      convEntriesF f h es = some r → HeapExt h r.1 := by
  intro es
  induction es with
  | nil =>
    intro h r hc
    simp only [convEntriesF] at hc
    cases hc
    exact heapExt_refl h
  | cons p es ih =>
    obtain ⟨k, w⟩ := p
    intro h r hc
    simp only [convEntriesF] at hc
    cases hcv : f h w with
    | none => simp only [hcv] at hc; exact Option.noConfusion hc
    | some pr =>
      obtain ⟨h1, y⟩ := pr
      simp only [hcv] at hc
      cases hce : convEntriesF f h1 es with
      | none => simp only [hce] at hc; exact Option.noConfusion hc
      | some pr2 =>
        obtain ⟨h2, ys⟩ := pr2
        simp only [hce] at hc
        cases hc
        exact heapExt_trans (hf h w (h1, y) hcv) (ih h1 (h2, ys) hce)

/-- The fuelled `convert_nested` of the heap model only extends the heap:
every address allocated before the call keeps its object. -/
theorem convVal_ext (fuel : Nat) :
    ∀ h v r, convVal fuel h v = some r → HeapExt h r.1 := by
  induction fuel with
  | zero =>
    intro h v r hc
    exact Option.noConfusion hc
  | succ n ih =>
    intro h v r hc
    cases v with
    | prim p =>
      cases p <;> simp only [convVal_succ] at hc <;> cases hc <;>
        exact heapExt_refl h
    | ref a =>
      simp only [convVal_succ] at hc
      cases hg : h.get a with
      | none => simp only [hg] at hc; exact Option.noConfusion hc
      | some o =>
        cases o with
        | list xs =>
          simp only [hg] at hc
          cases hcl : convListF (convVal n) h xs with
          | none => simp only [hcl] at hc; exact Option.noConfusion hc
          | some pr =>
            obtain ⟨h1, ys⟩ := pr
            simp only [hcl] at hc
            cases hc
            exact heapExt_trans (convListF_ext (convVal n) ih xs h (h1, ys) hcl)
              (heapExt_alloc h1 (.list ys))
        | dict es =>
          simp only [hg] at hc
          cases hce : convEntriesF (convVal n) h es with
          | none => simp only [hce] at hc; exact Option.noConfusion hc
          | some pr =>
            obtain ⟨h1, fs⟩ := pr
            simp only [hce] at hc
            cases hc
            exact heapExt_trans (convEntriesF_ext (convVal n) ih es h (h1, fs) hce)
              (heapExt_alloc h1 (.dict fs))

/-- Claim C8: the serializer never mutates its caller's argument.  In the
heap model every write of `serialize_doc` targets the freshly allocated
shallow copy or a freshly allocated container, so after a successful run
every address that existed before the call still holds exactly the object
it held before. -/
theorem serialize_doc_heap_frame (fuel : Nat) (h : Heap) (docA : Nat)
    (h' : Heap) (v : PyVal)
    (hrun : serialize_doc_heap fuel h docA = some (h', v)) :
    ∀ a, a < h.next → h'.get a = h.get a := by
  intro a ha
  unfold serialize_doc_heap at hrun
  cases hg : h.get docA with
  | none => simp only [hg] at hrun; exact Option.noConfusion hrun
  | some o =>
    cases o with
    | list xs => simp only [hg] at hrun; exact Option.noConfusion hrun
    | dict entries =>
      simp only [hg] at hrun
      cases hemp : entries.isEmpty with
      | true =>
        simp only [hemp, if_true] at hrun
        cases hrun
        rfl
      | false =>
        simp only [hemp, Bool.false_eq_true, if_false] at hrun
        simp only [Heap.alloc, Heap.set] at hrun
        have hext := convVal_ext fuel _ _ _ hrun
        refine Eq.trans (hext.2 a ?_) ?_
        · show a < h.next + 1
          omega
        · show Heap.get ⟨(h.next, _) :: (h.next, Obj.dict entries) :: h.objs,
            h.next + 1⟩ a = h.get a
          rw [heap_get_cons_ne _ (h.next + 1) (h.next + 1) h.next _ a
              (Nat.ne_of_gt ha),
            heap_get_cons_ne h.objs (h.next + 1) h.next h.next _ a
              (Nat.ne_of_gt ha)]

/-- Witness for C8: running the heap serializer on the demo heap leaves
both pre-existing addresses (the document dict and its nested list)
untouched. -/
theorem serialize_doc_heap_frame_witness :
    serialize_doc_heap 10 heap0 0 = some (c8resHeap, c8resVal)
    ∧ c8resHeap.get 0 = heap0.get 0
    ∧ c8resHeap.get 1 = heap0.get 1 :=
  ⟨by decide,
   serialize_doc_heap_frame 10 heap0 0 c8resHeap c8resVal (by decide) 0
     (by decide),
   serialize_doc_heap_frame 10 heap0 0 c8resHeap c8resVal (by decide) 1
     (by decide)⟩

end Itinerix
